import Mathlib

/-! # Verification of the atpy incremental cache updater and news batch accumulator

A shallow embedding of `atpy/data/cache/influxdb_cache.py` and
`atpy/data/iqfeed/iqfeed_news_provider.py`, together with theorems about
the fetch-plan reconciliation phase of `update_to_latest` (lines 48-65),
its queue drain loop (lines 74-89), the adjustment writers (lines 92-127)
and the news producer / batch accumulator (`IQFeedNewsListener.produce`,
lines 204-258; the per-record body is shared verbatim with
`IQFeedNewsProvider2.produce`, lines 91-145).
-/

/-- A Python `datetime.datetime` value: the wall-clock date (`day`, counted
in days from an arbitrary epoch), the seconds elapsed within that day
(`sod`) and the attached time-zone label (`tzone`; `""` marks a naive
value).  `replace(tzinfo=z)` changes only `tzone` and keeps the wall
clock. -/
structure PyDatetime where
  day : Int
  sod : Nat
  tzone : String
deriving DecidableEq, Repr

/-- The absolute instant of a datetime, given the UTC offset (in seconds)
of every zone label; the offset map `off` stands for the external tz
database used by `dateutil.tz`. -/
def instantOf (off : String → Int) (d : PyDatetime) : Int :=
  d.day * 86400 + (d.sod : Int) - off d.tzone

/-- Python `a < b` on two aware datetimes: comparison of their instants. -/
def dtLtB (off : String → Int) (a b : PyDatetime) : Bool :=
  instantOf off a < instantOf off b

/-- Identity of a logical time series, the grouping key of `ranges`
(`influxdb_cache.py` lines 21-35): `(symbol, interval_len,
interval_type)`. -/
structure SeriesKey where
  symbol : String
  interval_len : Nat
  interval_type : String
deriving DecidableEq, Repr

/-- The `BarsFilter` named tuple (lines 14-18), restricted to the
single-ticker shape built by `update_to_latest`. -/
structure BarsFilter where
  ticker : String
  interval_len : Nat
  interval_type : String
  bgn_prd : PyDatetime
deriving DecidableEq, Repr

/-- The series key a filter addresses. -/
def filterKey (f : BarsFilter) : SeriesKey :=
  ⟨f.ticker, f.interval_len, f.interval_type⟩

/-- Continuation filter for one `ranges` entry `(key, (first, last))`
(lines 60-61): `bgn_prd = datetime.combine(time.date(),
datetime.min.time()).replace(tzinfo=US/Eastern)`, i.e. midnight US/Eastern
of the wall-clock date of the recorded last timestamp. -/
def mkContinuation (e : SeriesKey × PyDatetime × PyDatetime) : BarsFilter :=
  ⟨e.1.symbol, e.1.interval_len, e.1.interval_type, ⟨e.2.2.day, 0, "US/Eastern"⟩⟩

/-- Cold-start filter for a remaining new symbol (lines 63-65):
`bgn_prd = datetime.combine(utcnow().date() - time_delta_back,
datetime.min.time()).replace(tzinfo=US/Eastern)`; `coldDay` is that
already-subtracted date (the `relativedelta` calendar arithmetic lives in
the external `dateutil` library). -/
def mkColdStart (coldDay : Int) (k : SeriesKey) : BarsFilter :=
  ⟨k.symbol, k.interval_len, k.interval_type, ⟨coldDay, 0, "US/Eastern"⟩⟩

/-- The guard of line 59: schedule when no cutoff is configured, or when
`time > skip_if_older_than` (instant comparison of aware datetimes). -/
def sched (off : String → Int) (skipCutoff : Option PyDatetime)
    (time : PyDatetime) : Bool :=
  match skipCutoff with
  | none => true
  | some c => dtLtB off c time

/-- Body of the loop at lines 55-61, acting on the pair
`(filters, new_symbols)`: remove the key from `new_symbols` when present,
then append a continuation filter when the staleness guard passes. -/
def planStep (off : String → Int) (skipCutoff : Option PyDatetime)
    (acc : List BarsFilter × List SeriesKey)
    (e : SeriesKey × PyDatetime × PyDatetime) :
    List BarsFilter × List SeriesKey :=
  let ns := if e.1 ∈ acc.2 then acc.2.erase e.1 else acc.2
  if sched off skipCutoff e.2.2 then (acc.1 ++ [mkContinuation e], ns)
  else (acc.1, ns)

/-- Planning phase of `update_to_latest` (lines 48-65).  `rangesItems` is
`ranges(client).items()` in iteration order; `new_symbols` the
caller-supplied set as a duplicate-free list; `skipCutoff` the value
`(utcnow() - skip_if_older_than).astimezone(US/Eastern)` already computed
at line 53 (or `none`); `coldDay` the cold-start date of line 63.  Returns
the scheduled filter list and the final contents of the (mutated)
`new_symbols` set. -/
def update_plan (off : String → Int)
    (rangesItems : List (SeriesKey × PyDatetime × PyDatetime))
    (new_symbols : List SeriesKey) (skipCutoff : Option PyDatetime)
    (coldDay : Int) : List BarsFilter × List SeriesKey :=
  let p := rangesItems.foldl (planStep off skipCutoff) ([], new_symbols)
  (p.1 ++ p.2.map (mkColdStart coldDay), p.2)

/-! ## Reconciler lemmas -/

lemma planStep_fst (off : String → Int) (sc : Option PyDatetime)
    (acc : List BarsFilter × List SeriesKey)
    (e : SeriesKey × PyDatetime × PyDatetime) :
    (planStep off sc acc e).1 =
      acc.1 ++ (if sched off sc e.2.2 then [mkContinuation e] else []) := by
  unfold planStep
  by_cases h : sched off sc e.2.2 <;> simp [h]

lemma planStep_snd (off : String → Int) (sc : Option PyDatetime)
    (acc : List BarsFilter × List SeriesKey)
    (e : SeriesKey × PyDatetime × PyDatetime) :
    (planStep off sc acc e).2 = acc.2.erase e.1 := by
  unfold planStep
  by_cases hm : e.1 ∈ acc.2
  · by_cases h : sched off sc e.2.2 <;> simp [h, hm]
  · by_cases h : sched off sc e.2.2 <;>
      simp [h, hm, List.erase_of_not_mem hm]

lemma foldl_planStep_fst (off : String → Int) (sc : Option PyDatetime) :
    ∀ (items : List (SeriesKey × PyDatetime × PyDatetime))
      (acc : List BarsFilter × List SeriesKey),
      (items.foldl (planStep off sc) acc).1 =
        acc.1 ++ (items.filter (fun e => sched off sc e.2.2)).map mkContinuation := by
  intro items
  induction items with
  | nil => intro acc; simp
  | cons e rest ih =>
    intro acc
    rw [List.foldl_cons, ih, planStep_fst]
    by_cases h : sched off sc e.2.2 <;> simp [List.filter_cons, h]

lemma foldl_planStep_snd (off : String → Int) (sc : Option PyDatetime) :
    ∀ (items : List (SeriesKey × PyDatetime × PyDatetime))
      (acc : List BarsFilter × List SeriesKey),
      (items.foldl (planStep off sc) acc).2 =
        items.foldl (fun a e => a.erase e.1) acc.2 := by
  intro items
  induction items with
  | nil => intro acc; rfl
  | cons e rest ih =>
    intro acc
    rw [List.foldl_cons, List.foldl_cons, ih, planStep_snd]

/-- The fold of `erase` keeps exactly the members not named by any item. -/
lemma mem_foldl_erase (x : SeriesKey) :
    ∀ (items : List (SeriesKey × PyDatetime × PyDatetime))
      (ns : List SeriesKey), ns.Nodup →
      (x ∈ items.foldl (fun a e => a.erase e.1) ns ↔
        x ∈ ns ∧ x ∉ items.map Prod.fst) := by
  intro items
  induction items with
  | nil => intro ns _; simp
  | cons e rest ih =>
    intro ns hns
    rw [List.foldl_cons]
    rw [ih (ns.erase e.1) (hns.erase e.1)]
    rw [hns.mem_erase_iff]
    simp only [List.map_cons, List.mem_cons]
    constructor
    · rintro ⟨⟨hne, hmem⟩, hnot⟩
      exact ⟨hmem, fun hc => hc.elim (fun h => hne h) hnot⟩
    · rintro ⟨hmem, hnot⟩
      exact ⟨⟨fun h => hnot (Or.inl h), hmem⟩, fun h => hnot (Or.inr h)⟩

lemma nodup_foldl_erase :
    ∀ (items : List (SeriesKey × PyDatetime × PyDatetime))
      (ns : List SeriesKey), ns.Nodup →
      (items.foldl (fun a e => a.erase e.1) ns).Nodup := by
  intro items
  induction items with
  | nil => intro ns h; exact h
  | cons e rest ih =>
    intro ns hns
    rw [List.foldl_cons]
    exact ih _ (hns.erase e.1)

lemma update_plan_eq (off : String → Int)
    (items : List (SeriesKey × PyDatetime × PyDatetime))
    (ns : List SeriesKey) (sc : Option PyDatetime) (cd : Int) :
    update_plan off items ns sc cd =
      ((items.filter (fun e => sched off sc e.2.2)).map mkContinuation ++
        (items.foldl (fun a e => a.erase e.1) ns).map (mkColdStart cd),
       items.foldl (fun a e => a.erase e.1) ns) := by
  simp only [update_plan]
  rw [foldl_planStep_fst, foldl_planStep_snd]
  simp

/-- With duplicate-free keys, filtering an association list for one present
key yields exactly its entry. -/
lemma filter_assoc_singleton {β : Type} :
    ∀ (items : List (SeriesKey × β)) (k : SeriesKey) (b : β),
      (items.map Prod.fst).Nodup → (k, b) ∈ items →
      items.filter (fun e => e.1 == k) = [(k, b)] := by
  intro items
  induction items with
  | nil => intro k b _ hmem; cases hmem
  | cons e rest ih =>
    intro k b hnd hmem
    simp only [List.map_cons, List.nodup_cons] at hnd
    rcases List.mem_cons.mp hmem with he | hrest
    · subst he
      have hnone : rest.filter (fun x => x.1 == k) = [] := by
        refine List.filter_eq_nil_iff.mpr ?_
        intro a ha hbeq
        have heq : a.1 = k := by simpa using hbeq
        have hmm : a.1 ∈ rest.map Prod.fst := List.mem_map_of_mem Prod.fst ha
        rw [heq] at hmm
        exact hnd.1 hmm
      simp [List.filter_cons, hnone]
    · have hne : ¬(e.1 = k) := by
        intro hek
        apply hnd.1
        rw [hek]
        exact List.mem_map_of_mem Prod.fst hrest
      have : (e.1 == k) = false := by simpa using hne
      simp only [List.filter_cons, this, cond_false]
      exact ih k b hnd.2 hrest

lemma filterKey_mkContinuation (e : SeriesKey × PyDatetime × PyDatetime) :
    filterKey (mkContinuation e) = e.1 := rfl

lemma filterKey_mkColdStart (cd : Int) (k : SeriesKey) :
    filterKey (mkColdStart cd k) = k := rfl

lemma filter_of_map {α β : Type} (p : α → Bool) (f : β → α) :
    ∀ l : List β, (l.map f).filter p = (l.filter (fun b => p (f b))).map f := by
  intro l
  induction l with
  | nil => rfl
  | cons b rest ih =>
    simp only [List.map_cons, List.filter_cons]
    by_cases h : p (f b) <;> simp [h, ih]

lemma assoc_key_unique {β : Type} (items : List (SeriesKey × β)) (k : SeriesKey)
    (b : β) (a : SeriesKey × β) (hnd : (items.map Prod.fst).Nodup)
    (hkb : (k, b) ∈ items) (ha : a ∈ items) (heq : a.1 = k) : a = (k, b) := by
  have hmem : a ∈ items.filter (fun e => e.1 == k) := by
    rw [List.mem_filter]
    exact ⟨ha, by simp [heq]⟩
  rw [filter_assoc_singleton items k b hnd hkb] at hmem
  simpa using hmem

/-- The keys erased from `new_symbols` never reappear as cold starts: the
filter of the cold-start block for a key present in the store state is
empty. -/
lemma cold_filter_eq_nil (off : String → Int)
    (items : List (SeriesKey × PyDatetime × PyDatetime)) (ns : List SeriesKey)
    (cd : Int) (k : SeriesKey) (hns : ns.Nodup) (hk : k ∈ items.map Prod.fst) :
    ((items.foldl (fun a e => a.erase e.1) ns).map (mkColdStart cd)).filter
      (fun f => filterKey f == k) = [] := by
  rw [filter_of_map]
  have hnil : (items.foldl (fun a e => a.erase e.1) ns).filter
      (fun s => filterKey (mkColdStart cd s) == k) = [] := by
    refine List.filter_eq_nil_iff.mpr ?_
    intro s hs hbeq
    have hsk : s = k := by simpa [filterKey_mkColdStart] using hbeq
    rw [hsk] at hs
    have := (mem_foldl_erase k items ns hns).mp hs
    exact this.2 hk
  rw [hnil]
  rfl

/-! ## Reconciler claims -/

/-- C1 (amended): for every key recorded in the store state with range
`(f, l)`, when no staleness cutoff applies, `update_to_latest` schedules
exactly one continuation request for that key, and its `begin_period` is
midnight US/Eastern of the SAME wall-clock day as `l` (the code uses
`time.date()` directly at line 60), not the day following `l`. -/
theorem update_plan_continuation_same_day
    (off : String → Int) (items : List (SeriesKey × PyDatetime × PyDatetime))
    (ns : List SeriesKey) (sc : Option PyDatetime) (cd : Int) (k : SeriesKey)
    (fts l : PyDatetime)
    (hnd : (items.map Prod.fst).Nodup) (hns : ns.Nodup)
    (hmem : (k, fts, l) ∈ items) (hsched : sched off sc l = true) :
    (update_plan off items ns sc cd).1.filter (fun f => filterKey f == k) =
      [⟨k.symbol, k.interval_len, k.interval_type, ⟨l.day, 0, "US/Eastern"⟩⟩] := by
  have h := congrArg Prod.fst (update_plan_eq off items ns sc cd)
  rw [h, List.filter_append, filter_of_map, List.filter_comm]
  have hpred : items.filter (fun b => filterKey (mkContinuation b) == k) =
      [(k, fts, l)] := filter_assoc_singleton items k (fts, l) hnd hmem
  rw [hpred]
  have hf : [(k, fts, l)].filter (fun e => sched off sc e.2.2) = [(k, fts, l)] := by
    simp [List.filter_cons, hsched]
  rw [hf, cold_filter_eq_nil off items ns cd k hns
    (List.mem_map_of_mem Prod.fst hmem)]
  rfl

/-- Witness for `update_plan_continuation_same_day` at a concrete store
state with one recorded series and no staleness cutoff. -/
theorem update_plan_continuation_same_day_inst :
    (update_plan (fun _ => 0)
        [(⟨"AAPL", 60, "s"⟩, ⟨0, 0, "UTC"⟩, ⟨100, 3600, "UTC"⟩)] [] none 0).1.filter
      (fun f => filterKey f == (⟨"AAPL", 60, "s"⟩ : SeriesKey)) =
      [⟨"AAPL", 60, "s", ⟨100, 0, "US/Eastern"⟩⟩] :=
  update_plan_continuation_same_day (fun _ => 0) _ _ none 0 _ ⟨0, 0, "UTC"⟩
    ⟨100, 3600, "UTC"⟩ (by decide) (by decide) (by decide) (by decide)

/-- C1 as stated by the spec is false on the code: for a series whose last
recorded timestamp lies on day 100, the scheduled continuation request
begins on day 100 (the same day), not on day 101 (the following day). -/
theorem update_plan_next_day_cex :
    ((update_plan (fun _ => 0)
        [(⟨"AAPL", 60, "s"⟩, ⟨0, 0, "UTC"⟩, ⟨100, 3600, "UTC"⟩)] [] none 0).1.map
      (fun f => f.bgn_prd.day) = [(100 : Int)]) ∧
    ¬ ((update_plan (fun _ => 0)
        [(⟨"AAPL", 60, "s"⟩, ⟨0, 0, "UTC"⟩, ⟨100, 3600, "UTC"⟩)] [] none 0).1.map
      (fun f => f.bgn_prd.day) = [(101 : Int)]) := by
  constructor
  · rfl
  · decide

/-- C5: within one reconciliation pass the scheduled filters address
pairwise-distinct series keys — a key in both the store state and the
desired set is removed from the latter before cold starts are appended. -/
theorem update_plan_no_duplicate_keys
    (off : String → Int) (items : List (SeriesKey × PyDatetime × PyDatetime))
    (ns : List SeriesKey) (sc : Option PyDatetime) (cd : Int)
    (hnd : (items.map Prod.fst).Nodup) (hns : ns.Nodup) :
    ((update_plan off items ns sc cd).1.map filterKey).Nodup := by
  have h := congrArg Prod.fst (update_plan_eq off items ns sc cd)
  rw [h, List.map_append, List.map_map, List.map_map]
  have hc1 : (filterKey ∘ mkContinuation) =
      (Prod.fst : SeriesKey × PyDatetime × PyDatetime → SeriesKey) := rfl
  have hc2 : (filterKey ∘ mkColdStart cd) = (id : SeriesKey → SeriesKey) := rfl
  rw [hc1, hc2, List.map_id]
  rw [List.nodup_append]
  refine ⟨?_, ?_, ?_⟩
  · exact List.Nodup.sublist
      (List.Sublist.map Prod.fst (List.filter_sublist items)) hnd
  · exact nodup_foldl_erase items ns hns
  · intro a ha hb
    have ha' : a ∈ items.map Prod.fst :=
      (List.Sublist.map Prod.fst (List.filter_sublist items)).mem ha
    have := (mem_foldl_erase a items ns hns).mp hb
    exact this.2 ha'

/-- Witness for `update_plan_no_duplicate_keys`: one recorded series that
is also in the desired set, plus one genuinely new series. -/
theorem update_plan_no_duplicate_keys_inst :
    ((update_plan (fun _ => 0)
        [(⟨"AAPL", 60, "s"⟩, ⟨0, 0, "UTC"⟩, ⟨100, 0, "UTC"⟩)]
        [⟨"AAPL", 60, "s"⟩, ⟨"MSFT", 60, "s"⟩] none 0).1.map filterKey).Nodup :=
  update_plan_no_duplicate_keys (fun _ => 0) _ _ none 0 (by decide) (by decide)

/-- C8: `update_to_latest` mutates the caller-supplied `new_symbols` set in
place — after the planning loop, any key present both in the set and in the
store state has been removed from it. -/
theorem update_plan_mutates_new_symbols
    (off : String → Int) (items : List (SeriesKey × PyDatetime × PyDatetime))
    (ns : List SeriesKey) (sc : Option PyDatetime) (cd : Int) (k : SeriesKey)
    (hns : ns.Nodup) (h1 : k ∈ ns) (h2 : k ∈ items.map Prod.fst) :
    k ∉ (update_plan off items ns sc cd).2 := by
  have h := congrArg Prod.snd (update_plan_eq off items ns sc cd)
  rw [h, mem_foldl_erase k items ns hns]
  rintro ⟨_, hc⟩
  exact hc h2

/-- Witness for `update_plan_mutates_new_symbols`. -/
theorem update_plan_mutates_new_symbols_inst :
    (⟨"AAPL", 60, "s"⟩ : SeriesKey) ∉
      (update_plan (fun _ => 0)
        [(⟨"AAPL", 60, "s"⟩, ⟨0, 0, "UTC"⟩, ⟨100, 0, "UTC"⟩)]
        [⟨"AAPL", 60, "s"⟩] none 0).2 :=
  update_plan_mutates_new_symbols (fun _ => 0) _ _ none 0 _
    (by decide) (by decide) (by decide)

/-- C9: with a configured staleness cutoff, a key that is both desired and
recorded but whose last timestamp is older than the cutoff receives no
request at all — the continuation is skipped as stale and the key, already
removed from `new_symbols`, is never scheduled as a cold start. -/
theorem update_plan_stale_not_scheduled
    (off : String → Int) (items : List (SeriesKey × PyDatetime × PyDatetime))
    (ns : List SeriesKey) (c : PyDatetime) (cd : Int) (k : SeriesKey)
    (fts l : PyDatetime)
    (hnd : (items.map Prod.fst).Nodup) (hns : ns.Nodup)
    (hmem : (k, fts, l) ∈ items) (hkns : k ∈ ns)
    (hstale : dtLtB off l c = true) :
    (update_plan off items ns (some c) cd).1.filter
      (fun f => filterKey f == k) = [] := by
  have h := congrArg Prod.fst (update_plan_eq off items ns (some c) cd)
  rw [h, List.filter_append, filter_of_map]
  have hcont : (items.filter (fun e => sched off (some c) e.2.2)).filter
      (fun b => filterKey (mkContinuation b) == k) = [] := by
    refine List.filter_eq_nil_iff.mpr ?_
    intro a ha hbeq
    have h1 : a ∈ items := (List.filter_sublist items).mem ha
    have h2 : sched off (some c) a.2.2 = true := (List.mem_filter.mp ha).2
    have heq : a.1 = k := by simpa [filterKey_mkContinuation] using hbeq
    have hak : a = (k, fts, l) := assoc_key_unique items k (fts, l) a hnd hmem h1 heq
    rw [hak] at h2
    have hlc : instantOf off l < instantOf off c := by
      simpa [dtLtB] using hstale
    have hcl : instantOf off c < instantOf off l := by
      simpa [sched, dtLtB] using h2
    omega
  rw [hcont, cold_filter_eq_nil off items ns cd k hns
    (List.mem_map_of_mem Prod.fst hmem)]
  rfl

/-- Witness for `update_plan_stale_not_scheduled`: one desired, recorded
series whose last timestamp (day 0) precedes the cutoff (day 1). -/
theorem update_plan_stale_not_scheduled_inst :
    (update_plan (fun _ => 0)
        [(⟨"AAPL", 60, "s"⟩, ⟨0, 0, "UTC"⟩, ⟨0, 0, "UTC"⟩)]
        [⟨"AAPL", 60, "s"⟩] (some ⟨1, 0, "UTC"⟩) 0).1.filter
      (fun f => filterKey f == (⟨"AAPL", 60, "s"⟩ : SeriesKey)) = [] :=
  update_plan_stale_not_scheduled (fun _ => 0) _ _ ⟨1, 0, "UTC"⟩ 0 _
    ⟨0, 0, "UTC"⟩ ⟨0, 0, "UTC"⟩ (by decide) (by decide) (by decide) (by decide)
    (by decide)

/-! ## The ingestion drain loop (`update_to_latest` lines 69-89) -/

/-- A column-oriented tabular payload (pandas `DataFrame`): an ordered list
of (column name, column values). -/
structure DataFrame where
  columns : List (String × List String)
deriving DecidableEq, Repr

/-- Number of rows (length of the first column, `0` for no columns). -/
def DataFrame.nrows (df : DataFrame) : Nat :=
  (df.columns.head?.map (fun c => c.2.length)).getD 0

/-- pandas `df.empty`: no columns or no rows. -/
def DataFrame.emptyDF (df : DataFrame) : Bool :=
  df.columns.isEmpty || df.nrows == 0

/-- `to_cache.drop('timestamp', axis=1, inplace=True)` generalized to one
column name. -/
def DataFrame.dropColumn (df : DataFrame) (name : String) : DataFrame :=
  ⟨df.columns.filter (fun c => c.1 != name)⟩

/-- `df[name] = v`: overwrite the column when present, else append it;
the scalar broadcasts over all rows. -/
def DataFrame.setColumn (df : DataFrame) (name v : String) : DataFrame :=
  if df.columns.any (fun c => c.1 == name) then
    ⟨df.columns.map (fun c => if c.1 == name then (c.1, List.replicate df.nrows v) else c)⟩
  else ⟨df.columns ++ [(name, List.replicate df.nrows v)]⟩

/-- Normalization of a non-empty payload (lines 78-79): drop the
`timestamp` column, then set the `interval` column to
`str(ft.interval_len) + "_" + ft.interval_type`. -/
def normalizePayload (ft : BarsFilter) (df : DataFrame) : DataFrame :=
  (df.dropColumn "timestamp").setColumn "interval"
    (toString ft.interval_len ++ "_" ++ ft.interval_type)

/-- The argument `client.write_points` receives for one drained
`(ft, to_cache)` pair (lines 75-82): a non-`None`, non-empty payload is
normalized in place first; `None` or empty payloads reach the call
unchanged, because the call at line 82 sits outside the guard of
line 77. -/
def processPayload (ft : BarsFilter) (p : Option DataFrame) : Option DataFrame :=
  match p with
  | some df => if !df.emptyDF then some (normalizePayload ft df) else some df
  | none => none

/-- State of the foreground drain loop: the argument of every
`client.write_points` call so far, in order, and the exceptions logged by
the handler at lines 83-84. -/
structure DrainState where
  sinkArgs : List (Option DataFrame)
  errors : List String
deriving DecidableEq, Repr

/-- One iteration of the drain loop (lines 74-84): normalize, invoke the
sink, and on a sink exception log it and continue.  `sink i p` is the
outcome of `client.write_points` for the `i`-th drained item. -/
def drainOne (sink : Nat → Option DataFrame → Except String Unit)
    (s : DrainState) (i : Nat) (item : BarsFilter × Option DataFrame) :
    DrainState :=
  match sink i (processPayload item.1 item.2) with
  | Except.ok _ => ⟨s.sinkArgs ++ [processPayload item.1 item.2], s.errors⟩
  | Except.error e => ⟨s.sinkArgs ++ [processPayload item.1 item.2], s.errors ++ [e]⟩

/-- The drain loop of `update_to_latest` over the queue contents: the
`(ft, to_cache)` pairs in arrival order, up to the `None` sentinel. -/
def drainRun (sink : Nat → Option DataFrame → Except String Unit)
    (items : List (BarsFilter × Option DataFrame)) : DrainState :=
  (items.foldl (fun st it => (drainOne sink st.1 st.2 it, st.2 + 1)) (⟨[], []⟩, 0)).1

lemma drainOne_sinkArgs (sink : Nat → Option DataFrame → Except String Unit)
    (s : DrainState) (i : Nat) (item : BarsFilter × Option DataFrame) :
    (drainOne sink s i item).sinkArgs =
      s.sinkArgs ++ [processPayload item.1 item.2] := by
  unfold drainOne
  cases sink i (processPayload item.1 item.2) <;> rfl

lemma foldl_drain_sinkArgs (sink : Nat → Option DataFrame → Except String Unit) :
    ∀ (items : List (BarsFilter × Option DataFrame)) (s : DrainState) (i : Nat),
      ((items.foldl (fun st it => (drainOne sink st.1 st.2 it, st.2 + 1))
          (s, i)).1).sinkArgs =
        s.sinkArgs ++ items.map (fun it => processPayload it.1 it.2) := by
  intro items
  induction items with
  | nil => intro s i; simp
  | cons it rest ih =>
    intro s i
    rw [List.foldl_cons, ih, drainOne_sinkArgs]
    simp

/-! ## Drain loop claims -/

/-- C7: a sink failure on one drained item is caught (logged) and does not
abort the loop — the sequence of sink invocations is identical to the one
of an always-succeeding sink, and every drained item gets exactly one
invocation. -/
theorem drain_sink_failure_isolated
    (sink : Nat → Option DataFrame → Except String Unit)
    (items : List (BarsFilter × Option DataFrame)) :
    (drainRun sink items).sinkArgs =
      (drainRun (fun _ _ => Except.ok ()) items).sinkArgs ∧
    (drainRun sink items).sinkArgs.length = items.length := by
  unfold drainRun
  rw [foldl_drain_sinkArgs, foldl_drain_sinkArgs]
  simp

/-- C3 (amended): the sink is invoked exactly once per drained item, in
arrival order; a non-`None`, non-empty payload is normalized first (its
`timestamp` column dropped and the `interval` tag derived from the
request's key added), while `None` and empty payloads are also handed to
the sink, unchanged — the `write_points` call is not guarded by the
non-empty test. -/
theorem drain_sink_invocations
    (sink : Nat → Option DataFrame → Except String Unit)
    (items : List (BarsFilter × Option DataFrame)) :
    (drainRun sink items).sinkArgs =
      items.map (fun it => processPayload it.1 it.2) := by
  unfold drainRun
  rw [foldl_drain_sinkArgs]
  rfl

/-- C3 as stated by the spec is false on the code: for a drained item whose
payload is `None`, the sink is still invoked (once, with the `None`
payload), while the claim predicts no invocation at all. -/
theorem drain_skips_empty_cex :
    (drainRun (fun _ _ => Except.ok ())
        [(⟨"AAPL", 60, "s", ⟨0, 0, "US/Eastern"⟩⟩, none)]).sinkArgs = [none] ∧
    ¬ (drainRun (fun _ _ => Except.ok ())
        [(⟨"AAPL", 60, "s", ⟨0, 0, "US/Eastern"⟩⟩, none)]).sinkArgs = [] := by
  constructor
  · rfl
  · decide

/-! ## Adjustment writers (`influxdb_cache.py` lines 92-127) -/

/-- One JSON point as built by `_get_adjustment_json_query` (lines
117-127); `V` is the (externally supplied) type of the adjustment value.
`time` is `datetime.combine(timestamp, datetime.min.time())` — midnight of
the given date, naive. -/
structure AdjPoint (V : Type) where
  measurement : String
  tag_symbol : String
  tag_data_provider : String
  time : PyDatetime
  field_value : V
  field_type : String
deriving DecidableEq, Repr

/-- `_get_adjustment_json_query(timestamp, symbol, typ, value,
data_provider)`. -/
def get_adjustment_json_query {V : Type} (timestamp : Int) (symbol : String)
    (typ : String) (value : V) (data_provider : String) : AdjPoint V :=
  ⟨"splits_dividends", symbol, data_provider, ⟨timestamp, 0, ""⟩, value, typ⟩

/-- `add_adjustments` (lines 92-100): the point list handed to
`InfluxDBClient.write_points`. -/
def add_adjustments {V : Type} (adjustments : List (Int × String × String × V))
    (data_provider : String) : List (AdjPoint V) :=
  adjustments.map (fun a =>
    get_adjustment_json_query a.1 a.2.1 a.2.2.1 a.2.2.2 data_provider)

/-- `add_adjustment` (lines 103-114): the singleton point list handed to
`InfluxDBClient.write_points`. -/
def add_adjustment {V : Type} (timestamp : Int) (symbol : String) (typ : String)
    (value : V) (data_provider : String) : List (AdjPoint V) :=
  [get_adjustment_json_query timestamp symbol typ value data_provider]

/-- C10: `add_adjustment` writes exactly the same single point as
`add_adjustments` applied to the singleton list — one point with
measurement `splits_dividends`, time midnight of the given date, tags
`(symbol, data_provider)` and fields `(value, typ)`, via the shared
point-construction function. -/
theorem add_adjustment_eq_singleton {V : Type} (t : Int) (s ty : String)
    (v : V) (dp : String) :
    add_adjustment t s ty v dp = add_adjustments [(t, s, ty, v)] dp ∧
    add_adjustment t s ty v dp =
      [⟨"splits_dividends", s, dp, ⟨t, 0, ""⟩, v, ty⟩] :=
  ⟨rfl, rfl⟩

/-! ## The news producer / batch accumulator
(`iqfeed_news_provider.py`, `IQFeedNewsListener.produce`, lines 204-258;
the identical per-record body also appears in `IQFeedNewsProvider2.produce`,
lines 91-145). -/

/-- One headline record `h._asdict()`: an ordered field-name/value mapping.
The records returned by the news connection always carry the `story_id`
and `headline` fields. -/
abbrev Record : Type := List (String × String)

/-- Python `h[k]` on a record (defaulting for absent keys, which the
provider's records never exercise for the fields used here). -/
def getField (h : Record) (k : String) : String :=
  (List.lookup k h).getD ""

/-- Python `h[k] = v` on a dict: overwrite in place when present, else
append (insertion order). -/
def setField (h : Record) (k v : String) : Record :=
  if List.any h (fun kv => kv.1 == k) then
    List.map (fun kv => if kv.1 == k then (kv.1, v) else kv) h
  else h ++ [(k, v)]

/-- `{k + key_suffix: v for k, v in h.items()}` (row mode, line 241). -/
def addSuffix (suffix : String) (h : Record) : Record :=
  List.map (fun kv => (kv.1 ++ suffix, kv.2)) h

/-- `{f + key_suffix: list() for f in h.keys()}` (lines 224 and 227). -/
def freshCols (suffix : String) (h : Record) : List (String × List String) :=
  List.map (fun kv => (kv.1 ++ suffix, ([] : List String))) h

/-- `for key, value in h.items(): buf[key + key_suffix].append(value)`
(lines 229-231, effect on one of the two column dicts). -/
def colAppend (suffix : String) (h : Record)
    (buf : List (String × List String)) : List (String × List String) :=
  List.foldl (fun b kv =>
    b.map (fun c => if c.1 == kv.1 ++ suffix then (c.1, c.2 ++ [kv.2]) else c)) buf h

/-- `len(self.current_minibatch[list(self.current_minibatch.keys())[0]])`
(line 233): the value count of the first column. -/
def colFirstLen (buf : List (String × List String)) : Nat :=
  ((buf.head?).map (fun c => c.2.length)).getD 0

/-- `len(...) == self.minibatch` where `minibatch` may be `None` (in
Python `x == None` is `False` for an `int` x). -/
def hitsMinibatch (minibatch : Option Nat) (n : Nat) : Bool :=
  match minibatch with
  | none => false
  | some m => n == m

/-- Python `story_id in ids or headline in titles` (line 215, negated):
the dedup test against the per-request accumulated identity lists. -/
def isDup (ids titles : List String) (h : Record) : Bool :=
  ids.contains (getField h "story_id") || titles.contains (getField h "headline")

/-- The text attachment of lines 219-220: `h['text'] =
conn.request_news_story(h['story_id'])` when `attach_text` is set;
`story` models the external `request_news_story`. -/
def attachText (attach : Bool) (story : String → String) (h : Record) : Record :=
  if attach then setField h "text" (story (getField h "story_id")) else h

/-- Configuration of the producer: the constructor arguments of
`IQFeedNewsListener` used by `produce`, plus the external story-text
provider. -/
structure NewsConfig where
  minibatch : Option Nat
  attach_text : Bool
  key_suffix : String
  story : String → String

/-- Payload of an event delivered to the listeners. -/
inductive EventData where
  | nullData : EventData
  | colData (d : List (String × List String)) : EventData
  | rowData (d : List Record) : EventData
deriving DecidableEq, Repr

/-- An event delivered to the listeners: `{'type': ..., 'data': ...}`. -/
structure NewsEvent where
  type : String
  data : EventData
deriving DecidableEq, Repr

/-- State of the column-mode per-record loop (lines 214-236): the
request-scoped `ids`, `titles` and `processed_data`, the instance-scoped
`current_minibatch`, and the events delivered to the listeners so far. -/
structure ColState where
  ids : List String
  titles : List String
  processed : Option (List (String × List String))
  current_minibatch : Option (List (String × List String))
  events : List NewsEvent
deriving DecidableEq, Repr

/-- Column-mode body of `produce` for one headline `h0` (lines 214-236):
skip duplicates, record the identity, optionally attach the story text,
lazily create the two column dicts, append the record to both, and flush
`current_minibatch` as a `news_minibatch` event when its first column
reaches the configured size. -/
def colStep (cfg : NewsConfig) (s : ColState) (h0 : Record) : ColState :=
  if isDup s.ids s.titles h0 then s
  else
    let ids := s.ids ++ [getField h0 "story_id"]
    let titles := s.titles ++ [getField h0 "headline"]
    let h := attachText cfg.attach_text cfg.story h0
    let pd0 := match s.processed with
      | none => freshCols cfg.key_suffix h
      | some d => d
    let mb0 := match s.current_minibatch with
      | none => freshCols cfg.key_suffix h
      | some d => d
    let pd := colAppend cfg.key_suffix h pd0
    let mb := colAppend cfg.key_suffix h mb0
    if hitsMinibatch cfg.minibatch (colFirstLen mb) then
      ⟨ids, titles, some pd, none,
        s.events ++ [⟨"news_minibatch", EventData.colData mb⟩]⟩
    else ⟨ids, titles, some pd, some mb, s.events⟩

/-- State of the row-mode per-record loop (lines 214-221 and 237-253). -/
structure RowState where
  ids : List String
  titles : List String
  processed : Option (List Record)
  current_minibatch : Option (List Record)
  events : List NewsEvent
deriving DecidableEq, Repr

/-- Row-mode body of `produce` for one headline `h0` (lines 214-221 and
237-253): skip duplicates, record the identity, optionally attach the
story text, re-key the record with the suffix, append it to
`processed_data`, and — only when a minibatch size is configured — buffer
it in `current_minibatch`, flushing as a `news_minibatch` event (and
resetting to the empty list) when the configured size is reached. -/
def rowStep (cfg : NewsConfig) (s : RowState) (h0 : Record) : RowState :=
  if isDup s.ids s.titles h0 then s
  else
    let ids := s.ids ++ [getField h0 "story_id"]
    let titles := s.titles ++ [getField h0 "headline"]
    let h := addSuffix cfg.key_suffix (attachText cfg.attach_text cfg.story h0)
    let pd := (s.processed.getD []) ++ [h]
    match cfg.minibatch with
    | none => ⟨ids, titles, some pd, s.current_minibatch, s.events⟩
    | some m =>
      let mb := (s.current_minibatch.getD []) ++ [h]
      if mb.length == m then
        ⟨ids, titles, some pd, some [],
          s.events ++ [⟨"news_minibatch", EventData.rowData mb⟩]⟩
      else ⟨ids, titles, some pd, some mb, s.events⟩

/-- One iteration of `produce` over a single news filter in column mode
(lines 205-255 with `column_mode` true): fold the per-record body over the
headlines returned for the filter, then deliver the `news_batch` event
with the per-request `processed_data` (`None` when no record was kept).
`mb0` is the instance-level `current_minibatch` carried over from earlier
requests. -/
def produceRequestCol (cfg : NewsConfig)
    (mb0 : Option (List (String × List String))) (headlines : List Record) :
    ColState :=
  let s := headlines.foldl (colStep cfg) ⟨[], [], none, mb0, []⟩
  ⟨s.ids, s.titles, s.processed, s.current_minibatch,
    s.events ++ [⟨"news_batch",
      match s.processed with
      | none => EventData.nullData
      | some d => EventData.colData d⟩]⟩

/-- One iteration of `produce` over a single news filter in row mode
(lines 205-255 with `column_mode` false). -/
def produceRequestRow (cfg : NewsConfig) (mb0 : Option (List Record))
    (headlines : List Record) : RowState :=
  let s := headlines.foldl (rowStep cfg) ⟨[], [], none, mb0, []⟩
  ⟨s.ids, s.titles, s.processed, s.current_minibatch,
    s.events ++ [⟨"news_batch",
      match s.processed with
      | none => EventData.nullData
      | some d => EventData.rowData d⟩]⟩

/-- Reference dedup rule, stated from the code for the amended C2: scanning
the request's records in order, a record is dropped iff some earlier KEPT
record has the same `story_id` OR the same `headline`; `acc` is the list
of records kept so far, and the final `acc` is returned. -/
def keptRecords (acc : List Record) : List Record → List Record
  | [] => acc
  | h :: rest =>
    if isDup (acc.map (fun k => getField k "story_id"))
        (acc.map (fun k => getField k "headline")) h then
      keptRecords acc rest
    else keptRecords (acc ++ [h]) rest

/-! ## Accumulator lemmas -/

lemma colStep_dup (cfg : NewsConfig) (s : ColState) (h : Record)
    (hg : isDup s.ids s.titles h = true) : colStep cfg s h = s := by
  unfold colStep
  rw [hg]
  simp

lemma colStep_not_dup (cfg : NewsConfig) (s : ColState) (h : Record)
    (hg : isDup s.ids s.titles h = false) :
    (colStep cfg s h).ids = s.ids ++ [getField h "story_id"] ∧
    (colStep cfg s h).titles = s.titles ++ [getField h "headline"] := by
  have hg' : ¬ (isDup s.ids s.titles h = true) := by rw [hg]; simp
  unfold colStep
  rw [if_neg hg']
  dsimp only
  repeat' split
  all_goals exact ⟨rfl, rfl⟩

lemma rowStep_dup (cfg : NewsConfig) (s : RowState) (h : Record)
    (hg : isDup s.ids s.titles h = true) : rowStep cfg s h = s := by
  unfold rowStep
  rw [hg]
  simp

lemma rowStep_not_dup (cfg : NewsConfig) (s : RowState) (h : Record)
    (hg : isDup s.ids s.titles h = false) :
    (rowStep cfg s h).ids = s.ids ++ [getField h "story_id"] ∧
    (rowStep cfg s h).titles = s.titles ++ [getField h "headline"] ∧
    (rowStep cfg s h).processed = some ((s.processed.getD []) ++
      [addSuffix cfg.key_suffix (attachText cfg.attach_text cfg.story h)]) := by
  have hg' : ¬ (isDup s.ids s.titles h = true) := by rw [hg]; simp
  unfold rowStep
  rw [if_neg hg']
  dsimp only
  repeat' split
  all_goals exact ⟨rfl, rfl, rfl⟩

lemma foldl_colStep_dedup (cfg : NewsConfig) :
    ∀ (hs acc : List Record) (s : ColState),
      s.ids = acc.map (fun k => getField k "story_id") →
      s.titles = acc.map (fun k => getField k "headline") →
      (hs.foldl (colStep cfg) s).ids =
          (keptRecords acc hs).map (fun k => getField k "story_id") ∧
        (hs.foldl (colStep cfg) s).titles =
          (keptRecords acc hs).map (fun k => getField k "headline") := by
  intro hs
  induction hs with
  | nil =>
    intro acc s h1 h2
    exact ⟨h1, h2⟩
  | cons h rest ih =>
    intro acc s h1 h2
    rw [List.foldl_cons]
    unfold keptRecords
    cases hguard : isDup (acc.map fun k => getField k "story_id")
        (acc.map fun k => getField k "headline") h with
    | true =>
      have hg : isDup s.ids s.titles h = true := by rw [h1, h2]; exact hguard
      rw [colStep_dup cfg s h hg]
      simp only [if_true]
      exact ih acc s h1 h2
    | false =>
      have hg : isDup s.ids s.titles h = false := by rw [h1, h2]; exact hguard
      obtain ⟨hi, ht⟩ := colStep_not_dup cfg s h hg
      simp only [Bool.false_eq_true, if_false]
      refine ih (acc ++ [h]) (colStep cfg s h) ?_ ?_
      · rw [hi, h1]; simp
      · rw [ht, h2]; simp

lemma foldl_rowStep_dedup (cfg : NewsConfig) :
    ∀ (hs acc : List Record) (s : RowState),
      s.ids = acc.map (fun k => getField k "story_id") →
      s.titles = acc.map (fun k => getField k "headline") →
      s.processed.getD [] = acc.map
        (fun h => addSuffix cfg.key_suffix (attachText cfg.attach_text cfg.story h)) →
      (hs.foldl (rowStep cfg) s).ids =
          (keptRecords acc hs).map (fun k => getField k "story_id") ∧
        (hs.foldl (rowStep cfg) s).titles =
          (keptRecords acc hs).map (fun k => getField k "headline") ∧
        (hs.foldl (rowStep cfg) s).processed.getD [] =
          (keptRecords acc hs).map
            (fun h => addSuffix cfg.key_suffix (attachText cfg.attach_text cfg.story h)) := by
  intro hs
  induction hs with
  | nil =>
    intro acc s h1 h2 h3
    exact ⟨h1, h2, h3⟩
  | cons h rest ih =>
    intro acc s h1 h2 h3
    rw [List.foldl_cons]
    unfold keptRecords
    cases hguard : isDup (acc.map fun k => getField k "story_id")
        (acc.map fun k => getField k "headline") h with
    | true =>
      have hg : isDup s.ids s.titles h = true := by rw [h1, h2]; exact hguard
      rw [rowStep_dup cfg s h hg]
      simp only [if_true]
      exact ih acc s h1 h2 h3
    | false =>
      have hg : isDup s.ids s.titles h = false := by rw [h1, h2]; exact hguard
      obtain ⟨hi, ht, hp⟩ := rowStep_not_dup cfg s h hg
      simp only [Bool.false_eq_true, if_false]
      refine ih (acc ++ [h]) (rowStep cfg s h) ?_ ?_ ?_
      · rw [hi, h1]; simp
      · rw [ht, h2]; simp
      · rw [hp]; simp [h3]

lemma colStep_events_mb_none (cfg : NewsConfig) (hmb : cfg.minibatch = none)
    (s : ColState) (h : Record) : (colStep cfg s h).events = s.events := by
  cases hguard : isDup s.ids s.titles h with
  | true => rw [colStep_dup cfg s h hguard]
  | false =>
    have hg' : ¬ (isDup s.ids s.titles h = true) := by rw [hguard]; simp
    unfold colStep
    rw [if_neg hg', hmb]
    simp [hitsMinibatch]

lemma rowStep_mb_none (cfg : NewsConfig) (hmb : cfg.minibatch = none)
    (s : RowState) (h : Record) :
    (rowStep cfg s h).events = s.events ∧
    (rowStep cfg s h).current_minibatch = s.current_minibatch := by
  cases hguard : isDup s.ids s.titles h with
  | true => rw [rowStep_dup cfg s h hguard]; exact ⟨rfl, rfl⟩
  | false =>
    have hg' : ¬ (isDup s.ids s.titles h = true) := by rw [hguard]; simp
    unfold rowStep
    rw [if_neg hg', hmb]
    exact ⟨rfl, rfl⟩

lemma foldl_colStep_events_mb_none (cfg : NewsConfig) (hmb : cfg.minibatch = none) :
    ∀ (hs : List Record) (s : ColState),
      (hs.foldl (colStep cfg) s).events = s.events := by
  intro hs
  induction hs with
  | nil => intro s; rfl
  | cons h rest ih =>
    intro s
    rw [List.foldl_cons, ih, colStep_events_mb_none cfg hmb]

lemma foldl_rowStep_mb_none (cfg : NewsConfig) (hmb : cfg.minibatch = none) :
    ∀ (hs : List Record) (s : RowState),
      (hs.foldl (rowStep cfg) s).events = s.events ∧
      (hs.foldl (rowStep cfg) s).current_minibatch = s.current_minibatch := by
  intro hs
  induction hs with
  | nil => intro s; exact ⟨rfl, rfl⟩
  | cons h rest ih =>
    intro s
    obtain ⟨he, hc⟩ := rowStep_mb_none cfg hmb s h
    rw [List.foldl_cons]
    obtain ⟨ihe, ihc⟩ := ih (rowStep cfg s h)
    exact ⟨by rw [ihe, he], by rw [ihc, hc]⟩

/-! ## Accumulator claims -/

/-- C2 (amended): within one request's result set, a record is dropped iff
some earlier KEPT record has the same `story_id` OR the same `headline`
(the test at line 215 checks the two components against two independent
lists, not as a pair); in both layout modes the kept records are exactly
`keptRecords [] headlines`, and row mode's per-request buffer holds their
transformed versions in order. -/
theorem produce_dedup_either_component (cfg : NewsConfig)
    (mbc : Option (List (String × List String))) (mbr : Option (List Record))
    (hs : List Record) :
    (produceRequestCol cfg mbc hs).ids =
        (keptRecords [] hs).map (fun k => getField k "story_id") ∧
      (produceRequestCol cfg mbc hs).titles =
        (keptRecords [] hs).map (fun k => getField k "headline") ∧
      (produceRequestRow cfg mbr hs).ids =
        (keptRecords [] hs).map (fun k => getField k "story_id") ∧
      (produceRequestRow cfg mbr hs).titles =
        (keptRecords [] hs).map (fun k => getField k "headline") ∧
      (produceRequestRow cfg mbr hs).processed.getD [] =
        (keptRecords [] hs).map
          (fun h => addSuffix cfg.key_suffix (attachText cfg.attach_text cfg.story h)) := by
  obtain ⟨hci, hct⟩ := foldl_colStep_dedup cfg hs [] ⟨[], [], none, mbc, []⟩ rfl rfl
  obtain ⟨hri, hrt, hrp⟩ := foldl_rowStep_dedup cfg hs [] ⟨[], [], none, mbr, []⟩ rfl rfl rfl
  refine ⟨?_, ?_, ?_, ?_, ?_⟩ <;>
    simp [produceRequestCol, produceRequestRow, hci, hct, hri, hrt, hrp]

/-- C2 as stated by the spec is false on the code: two records that share a
`story_id` but differ in headline are NOT both kept — the second is dropped
because its `story_id` alone already occurs in `ids`. -/
theorem dedup_pair_identity_cex :
    (produceRequestRow ⟨none, false, "", fun _ => ""⟩ none
        [[("story_id", "1"), ("headline", "a")],
         [("story_id", "1"), ("headline", "b")]]).ids = ["1"] ∧
    (produceRequestRow ⟨none, false, "", fun _ => ""⟩ none
        [[("story_id", "1"), ("headline", "a")],
         [("story_id", "1"), ("headline", "b")]]).processed =
      some [[("story_id", "1"), ("headline", "a")]] ∧
    ¬ (produceRequestRow ⟨none, false, "", fun _ => ""⟩ none
        [[("story_id", "1"), ("headline", "a")],
         [("story_id", "1"), ("headline", "b")]]).processed =
      some [[("story_id", "1"), ("headline", "a")],
        [("story_id", "1"), ("headline", "b")]] := by
  refine ⟨rfl, rfl, ?_⟩
  decide

/-- C4: in column mode with `minibatch = 3`, seven unique records for one
request produce exactly two `news_minibatch` events of three records each,
one final `news_batch` event carrying all seven records, and leave exactly
one leftover record in `current_minibatch`. -/
theorem minibatch_three_of_seven :
    (produceRequestCol ⟨some 3, false, "", fun _ => ""⟩ none
        [[("story_id", "i1"), ("headline", "t1")],
         [("story_id", "i2"), ("headline", "t2")],
         [("story_id", "i3"), ("headline", "t3")],
         [("story_id", "i4"), ("headline", "t4")],
         [("story_id", "i5"), ("headline", "t5")],
         [("story_id", "i6"), ("headline", "t6")],
         [("story_id", "i7"), ("headline", "t7")]]).events =
      [⟨"news_minibatch", EventData.colData
          [("story_id", ["i1", "i2", "i3"]), ("headline", ["t1", "t2", "t3"])]⟩,
       ⟨"news_minibatch", EventData.colData
          [("story_id", ["i4", "i5", "i6"]), ("headline", ["t4", "t5", "t6"])]⟩,
       ⟨"news_batch", EventData.colData
          [("story_id", ["i1", "i2", "i3", "i4", "i5", "i6", "i7"]),
           ("headline", ["t1", "t2", "t3", "t4", "t5", "t6", "t7"])]⟩] ∧
    (produceRequestCol ⟨some 3, false, "", fun _ => ""⟩ none
        [[("story_id", "i1"), ("headline", "t1")],
         [("story_id", "i2"), ("headline", "t2")],
         [("story_id", "i3"), ("headline", "t3")],
         [("story_id", "i4"), ("headline", "t4")],
         [("story_id", "i5"), ("headline", "t5")],
         [("story_id", "i6"), ("headline", "t6")],
         [("story_id", "i7"), ("headline", "t7")]]).current_minibatch =
      some [("story_id", ["i7"]), ("headline", ["t7"])] :=
  ⟨rfl, rfl⟩

/-- C6 (amended): with no configured minibatch size, no `news_minibatch`
event is ever emitted in either layout mode, and row mode leaves
`current_minibatch` untouched; column mode, however, still buffers records
into `current_minibatch` (lines 226-231 are not guarded by
`self.minibatch is not None`).  The per-request `news_batch` event is still
emitted exactly once in both modes. -/
theorem no_minibatch_events_when_none (cfg : NewsConfig)
    (hmb : cfg.minibatch = none)
    (mbc : Option (List (String × List String))) (mbr : Option (List Record))
    (hs : List Record) :
    (produceRequestCol cfg mbc hs).events.filter
        (fun e => e.type == "news_minibatch") = [] ∧
      (produceRequestRow cfg mbr hs).events.filter
        (fun e => e.type == "news_minibatch") = [] ∧
      (produceRequestRow cfg mbr hs).current_minibatch = mbr ∧
      ((produceRequestCol cfg mbc hs).events.filter
        (fun e => e.type == "news_batch")).length = 1 ∧
      ((produceRequestRow cfg mbr hs).events.filter
        (fun e => e.type == "news_batch")).length = 1 := by
  have hne : (("news_batch" : String) == "news_minibatch") = false := by rfl
  have heq : (("news_batch" : String) == "news_batch") = true := by rfl
  have hcol := foldl_colStep_events_mb_none cfg hmb hs ⟨[], [], none, mbc, []⟩
  obtain ⟨hrow, hrmb⟩ := foldl_rowStep_mb_none cfg hmb hs ⟨[], [], none, mbr, []⟩
  refine ⟨?_, ?_, ?_, ?_, ?_⟩
  · simp only [produceRequestCol, hcol]
    split <;> simp [List.filter_cons, hne]
  · simp only [produceRequestRow, hrow]
    split <;> simp [List.filter_cons, hne]
  · simp only [produceRequestRow, hrmb]
  · simp only [produceRequestCol, hcol]
    split <;> simp [List.filter_cons, heq]
  · simp only [produceRequestRow, hrow]
    split <;> simp [List.filter_cons, heq]

/-- Witness for `no_minibatch_events_when_none` on a concrete
one-record request. -/
theorem no_minibatch_events_when_none_inst :
    (produceRequestCol ⟨none, false, "", fun _ => ""⟩ none
        [[("story_id", "1"), ("headline", "a")]]).events.filter
        (fun e => e.type == "news_minibatch") = [] ∧
      (produceRequestRow ⟨none, false, "", fun _ => ""⟩ none
        [[("story_id", "1"), ("headline", "a")]]).events.filter
        (fun e => e.type == "news_minibatch") = [] ∧
      (produceRequestRow ⟨none, false, "", fun _ => ""⟩ none
        [[("story_id", "1"), ("headline", "a")]]).current_minibatch = none ∧
      ((produceRequestCol ⟨none, false, "", fun _ => ""⟩ none
        [[("story_id", "1"), ("headline", "a")]]).events.filter
        (fun e => e.type == "news_batch")).length = 1 ∧
      ((produceRequestRow ⟨none, false, "", fun _ => ""⟩ none
        [[("story_id", "1"), ("headline", "a")]]).events.filter
        (fun e => e.type == "news_batch")).length = 1 :=
  no_minibatch_events_when_none ⟨none, false, "", fun _ => ""⟩ rfl none none
    [[("story_id", "1"), ("headline", "a")]]

/-- C6 as stated by the spec is false on the code: in column mode with
`minibatch = None` the record IS buffered into `current_minibatch` (it
does not stay empty). -/
theorem col_buffers_without_minibatch_cex :
    (produceRequestCol ⟨none, false, "", fun _ => ""⟩ none
        [[("story_id", "1"), ("headline", "a")]]).current_minibatch =
      some [("story_id", ["1"]), ("headline", ["a"])] ∧
    ¬ (produceRequestCol ⟨none, false, "", fun _ => ""⟩ none
        [[("story_id", "1"), ("headline", "a")]]).current_minibatch = none := by
  refine ⟨rfl, ?_⟩
  decide
